import Mathlib

/-!
Verification of the type-system core of the artic compiler front-end
(`src/types.cpp`), via a shallow embedding in Lean.

Modelling conventions:

* `Type*` handles in C++ are hash-consed, so pointer equality coincides with
  the per-variant equality rule.  Structural variants compare their contents
  (member pointers); nominal variants are identified by the referenced AST
  declaration.  We embed types as the inductive `Ty` below, where nominal
  variants carry the identity of their declaration as a `Nat`, and every C++
  pointer comparison `==` between types becomes equality on `Ty`.  This
  assumes each declaration has a unique interned node, which is the intended
  interning invariant; the place where the code deviates from that invariant
  is examined separately with a lower-level store model (see the `Intern`
  section).
* `std::unordered_map<const TypeVar*, const Type*>` (a `ReplaceMap`) is an
  association list `List (Nat × Ty)` keyed by the variable's declaration id;
  `emplace` appends only when the key is absent and reports failure otherwise,
  exactly like the C++ member function.
-/

inductive PrimTag where
  | bool | i8 | i16 | i32 | i64 | u8 | u16 | u32 | u64 | f16 | f32 | f64
  deriving DecidableEq

/-- Shallow embedding of `artic::Type`.  Structural variants carry their
components; nominal variants (`var`, `forallT`, `structT`, `enumT`, `traitT`,
`implT`, `modT`, `alias`) carry the identity of the referenced declaration. -/
inductive Ty where
  | prim (tag : PrimTag)
  | tuple (args : List Ty)
  | sizedArray (elem : Ty) (size : Nat) (is_simd : Bool)
  | unsizedArray (elem : Ty)
  | ptr (pointee : Ty) (is_mut : Bool) (addr_space : Nat)
  | ref (pointee : Ty) (is_mut : Bool) (addr_space : Nat)
  | fn (dom : Ty) (codom : Ty)
  | typeApp (applied : Ty) (args : List Ty)
  | bottom
  | top
  | noRet
  | typeError
  | var (param : Nat)
  | forallT (decl : Nat)
  | structT (decl : Nat)
  | enumT (decl : Nat)
  | traitT (decl : Nat)
  | implT (decl : Nat)
  | modT (decl : Nat)
  | alias (decl : Nat)

mutual

/-- Boolean equality test on `Ty` (structural; used to build decidable
equality, which stands for pointer comparison of interned handles). -/
def Ty.beq : Ty → Ty → Bool
  | .prim t, .prim t2 => decide (t = t2)
  | .tuple as, .tuple bs => Ty.beqList as bs
  | .sizedArray e n s, .sizedArray e2 n2 s2 =>
      Ty.beq e e2 && decide (n = n2) && decide (s = s2)
  | .unsizedArray e, .unsizedArray e2 => Ty.beq e e2
  | .ptr p m s, .ptr p2 m2 s2 => Ty.beq p p2 && decide (m = m2) && decide (s = s2)
  | .ref p m s, .ref p2 m2 s2 => Ty.beq p p2 && decide (m = m2) && decide (s = s2)
  | .fn d c, .fn d2 c2 => Ty.beq d d2 && Ty.beq c c2
  | .typeApp f as, .typeApp f2 bs => Ty.beq f f2 && Ty.beqList as bs
  | .bottom, .bottom => true
  | .top, .top => true
  | .noRet, .noRet => true
  | .typeError, .typeError => true
  | .var p, .var p2 => decide (p = p2)
  | .forallT d, .forallT d2 => decide (d = d2)
  | .structT d, .structT d2 => decide (d = d2)
  | .enumT d, .enumT d2 => decide (d = d2)
  | .traitT d, .traitT d2 => decide (d = d2)
  | .implT d, .implT d2 => decide (d = d2)
  | .modT d, .modT d2 => decide (d = d2)
  | .alias d, .alias d2 => decide (d = d2)
  | _, _ => false

/-- Boolean equality on lists of `Ty`. -/
def Ty.beqList : List Ty → List Ty → Bool
  | [], [] => true
  | a :: as, b :: bs => Ty.beq a b && Ty.beqList as bs
  | _, _ => false

end

set_option maxHeartbeats 1600000 in
mutual

theorem Ty.beq_iff : ∀ (a b : Ty), (Ty.beq a b = true) ↔ a = b
  | a, b => by
    cases a <;> cases b <;> simp only [Ty.beq, decide_eq_true_eq,
      Bool.and_eq_true, reduceCtorEq, iff_false, Ty.tuple.injEq, Ty.prim.injEq,
      Ty.sizedArray.injEq, Ty.unsizedArray.injEq, Ty.ptr.injEq, Ty.ref.injEq,
      Ty.fn.injEq, Ty.typeApp.injEq, Ty.var.injEq, Ty.forallT.injEq,
      Ty.structT.injEq, Ty.enumT.injEq, Ty.traitT.injEq, Ty.implT.injEq,
      Ty.modT.injEq, Ty.alias.injEq, Bool.false_eq_true, not_false_eq_true]
    case tuple.tuple as bs => exact Ty.beqList_iff as bs
    case sizedArray.sizedArray e n s e2 n2 s2 =>
      rw [Ty.beq_iff e e2]; tauto
    case unsizedArray.unsizedArray e e2 => exact Ty.beq_iff e e2
    case ptr.ptr p m s p2 m2 s2 => rw [Ty.beq_iff p p2]; tauto
    case ref.ref p m s p2 m2 s2 => rw [Ty.beq_iff p p2]; tauto
    case fn.fn d c d2 c2 => rw [Ty.beq_iff d d2, Ty.beq_iff c c2]
    case typeApp.typeApp f as f2 bs =>
      rw [Ty.beq_iff f f2, Ty.beqList_iff as bs]

theorem Ty.beqList_iff : ∀ (as bs : List Ty), (Ty.beqList as bs = true) ↔ as = bs
  | as, bs => by
    cases as <;> cases bs <;> simp only [Ty.beqList, Bool.and_eq_true,
      reduceCtorEq, iff_false, List.cons.injEq, not_false_eq_true,
      Bool.false_eq_true, List.nil_eq, List.cons_ne_nil]
    case cons.cons a as b bs =>
      rw [Ty.beq_iff a b, Ty.beqList_iff as bs]

end

instance : DecidableEq Ty := fun a b => decidable_of_iff _ (Ty.beq_iff a b)

/-- C++ `isa<PtrType>`. -/
def Ty.isPtrType : Ty → Bool
  | .ptr _ _ _ => true
  | _ => false

mutual

/-- Translation of `Type::subtype` (types.cpp lines 548-600).  The branch
structure mirrors the C++ if/else chain: reflexivity and bottom/top first,
then auto-dereference for `RefType` on the left, then the `PtrType`-on-the-
right rules (auto-address, pointer-to-pointer with the sized-to-unsized array
coercion, and the generic-address-space bare-array coercion), then tuples and
functions. -/
def subtype (a b : Ty) : Bool :=
  if a = b then true
  else if a = Ty.bottom then true
  else if b = Ty.top then true
  else
    match a, b with
    | .ref p _ _, b => subtype p b
    | a, .ptr q mb asb =>
        if q.isPtrType then false
        else if !mb && subtype a q then true
        else
          match a with
          | .ptr p ma asa =>
              if asa = asb && (ma || !mb) then
                if subtype p q then true
                else
                  -- `&[T * N] <: &[T]`: early return in the C++ code
                  match q, p with
                  | .unsizedArray e, .sizedArray e2 _ simd =>
                      decide (e2 = e) && !simd
                  | _, _ => false
              else false
          | .sizedArray e2 _ simd =>
              -- `[T * N] <: &[T]` (only valid for generic pointers)
              match q with
              | .unsizedArray e => decide (asb = 0) && decide (e2 = e) && !simd
              | _ => false
          | _ => false
    | .tuple as, .tuple bs =>
        decide (as.length = bs.length) && subtypeList as bs
    | .fn d c, .fn d2 c2 => subtype d2 d && subtype c c2
    | _, _ => false
termination_by sizeOf a + sizeOf b
decreasing_by all_goals (simp_wf; omega)

/-- Componentwise subtyping for tuple arguments (the C++ loop); only invoked
on lists of equal length. -/
def subtypeList (as bs : List Ty) : Bool :=
  match as, bs with
  | a :: as, b :: bs => subtype a b && subtypeList as bs
  | _, _ => true
termination_by sizeOf as + sizeOf bs
decreasing_by all_goals (simp_wf; omega)

end

/-- Translation of `Type::join` (types.cpp lines 636-642). -/
def join (a b : Ty) : Ty :=
  if subtype a b then b
  else if subtype b a then a
  else Ty.top

/-- Interval of types for a type variable (`TypeBounds` in the source). -/
structure TypeBounds where
  lower : Ty
  upper : Ty

/-- Translation of `TypeBounds::meet` (types.cpp lines 11-21).  The C++
method updates the two fields in place and returns `*this`; the two updates
are independent, so we return the updated record. -/
def TypeBounds.meet (a b : TypeBounds) : TypeBounds :=
  { lower :=
      if subtype a.lower b.lower then b.lower
      else if !subtype b.lower a.lower then Ty.top
      else a.lower
    upper :=
      if subtype b.upper a.upper then b.upper
      else if !subtype a.upper b.upper then Ty.bottom
      else a.upper }

/-- A `ReplaceMap` / unification substitution: keys are `TypeVar` declaration
identities.  (`std::unordered_map` from `const TypeVar*` to `const Type*`.) -/
abbrev RMap := List (Nat × Ty)

/-- C++ `map.find(key) != map.end()`. -/
def rmapContains (m : RMap) (k : Nat) : Bool := m.any (fun p => p.1 == k)

/-- C++ `map.at(key)` / iterator lookup: the binding for `k`, if present. -/
def rmapLookup (m : RMap) (k : Nat) : Option Ty :=
  match m with
  | [] => none
  | (k2, v) :: rest => if k2 = k then some v else rmapLookup rest k

/-- `std::unordered_map::emplace`: inserts only if the key is absent, and
returns whether insertion took place (the `.second` the C++ code reads).
When the key is present, the existing binding is untouched even if the new
value differs or coincides. -/
def rmapEmplace (m : RMap) (k : Nat) (v : Ty) : Bool × RMap :=
  if rmapContains m k then (false, m) else (true, m ++ [(k, v)])

mutual

/-- Translation of `unify` (types.cpp lines 602-634).  The Boolean result is
the C++ return value; the map result is the final state of the by-reference
`map` argument (retained even on failure, exactly as in the source). -/
def unify (f t : Ty) (map : RMap) : Bool × RMap :=
  if f = t then (true, map)
  else
    match f, t with
    | .var v, t => rmapEmplace map v t
    | .tuple as, .tuple bs =>
        if as.length = bs.length then unifyList as bs map else (false, map)
    | .typeApp g as, .typeApp h bs =>
        if as.length = bs.length then
          match unify g h map with
          | (true, map2) => unifyList as bs map2
          | (false, map2) => (false, map2)
        else (false, map)
    | _, _ => (false, map)

/-- The componentwise unification loops of `unify`: stops at the first
failing component, keeping the bindings made so far. -/
def unifyList (as bs : List Ty) (map : RMap) : Bool × RMap :=
  match as, bs with
  | a :: as, b :: bs =>
      match unify a b map with
      | (true, map2) => unifyList as bs map2
      | (false, map2) => (false, map2)
  | _, _ => (true, map)

end

mutual

/-- Translation of the `replace` family (types.cpp lines 231-269).  Type
variables look themselves up in the map; nominal types and singletons are
identity (`Type::replace` default); `TypeApp::replace` rebuilds through
`type_app`, which for the interned `TypeApp`s (whose head is never an alias)
just re-interns a `TypeApp`. -/
def Ty.replace (m : RMap) : Ty → Ty
  | .tuple args => .tuple (Ty.replaceList m args)
  | .sizedArray e n s => .sizedArray (Ty.replace m e) n s
  | .unsizedArray e => .unsizedArray (Ty.replace m e)
  | .ptr p mu s => .ptr (Ty.replace m p) mu s
  | .ref p mu s => .ref (Ty.replace m p) mu s
  | .fn d c => .fn (Ty.replace m d) (Ty.replace m c)
  | .var v =>
      match rmapLookup m v with
      | some t => t
      | none => .var v
  | .typeApp g args => .typeApp g (Ty.replaceList m args)
  | t => t

/-- Pointwise `replace` over the argument lists of tuples and type
applications. -/
def Ty.replaceList (m : RMap) : List Ty → List Ty
  | [] => []
  | t :: ts => Ty.replace m t :: Ty.replaceList m ts

end

/-- The AST data of a `TypeDecl` (type alias declaration) that
`TypeTable::type_app` reaches through the interned `TypeAlias`: its type
parameters (each a `TypeVar` declaration identity) and the aliased body. -/
structure AliasDecl where
  params : List Nat
  body : Ty

/-- `PolyType::replace_map` (types.cpp lines 644-652): maps the declared
parameters to the supplied arguments pairwise. -/
def mkReplaceMap (params : List Nat) (args : List Ty) : RMap :=
  params.zip args

/-- Translation of `TypeTable::type_app` (types.cpp lines 840-850): a
`TypeAlias` head is expanded to its body under the parameter substitution;
any other head interns a `TypeApp`.  `env` stands for dereferencing the
alias's declaration pointer. -/
def type_app (env : Nat → AliasDecl) (applied : Ty) (type_args : List Ty) : Ty :=
  match applied with
  | .alias d => Ty.replace (mkReplaceMap (env d).params type_args) (env d).body
  | _ => .typeApp applied type_args

-- Helper lemmas about `subtype` ---------------------------------------------

/-- Reflexivity: the `this == other` fast path. -/
theorem subtype_refl (a : Ty) : subtype a a = true := by
  rw [subtype.eq_def]; simp

/-- Everything is a subtype of the top type. -/
theorem subtype_top (a : Ty) : subtype a Ty.top = true := by
  rw [subtype.eq_def]; simp

/-- The bottom type is a subtype of everything. -/
theorem bottom_subtype (b : Ty) : subtype Ty.bottom b = true := by
  rw [subtype.eq_def]; simp

-- Claims C5, C8, C6, C1, C10, C7 --------------------------------------------

/-- C5: `PtrType(SizedArrayType(I32,4,false), false, 0)` is a subtype of
`PtrType(UnsizedArrayType(I32), false, 0)`, and the same judgement with the
sized array's `is_simd` flag set is false. -/
theorem claim_C5_ptr_array_coercion :
    subtype (.ptr (.sizedArray (.prim .i32) 4 false) false 0)
            (.ptr (.unsizedArray (.prim .i32)) false 0) = true ∧
    subtype (.ptr (.sizedArray (.prim .i32) 4 true) false 0)
            (.ptr (.unsizedArray (.prim .i32)) false 0) = false := by
  constructor <;> simp [subtype, Ty.isPtrType]

/-- C8: join is an upper bound of its two arguments: `a <: a.join(b)` and
`b <: a.join(b)` for all types `a`, `b`. -/
theorem claim_C8_join_upper_bound (a b : Ty) :
    subtype a (join a b) = true ∧ subtype b (join a b) = true := by
  by_cases h1 : subtype a b = true
  · simp [join, h1, subtype_refl]
  · by_cases h2 : subtype b a = true
    · simp [join, h1, h2, subtype_refl]
    · simp [join, h1, h2, subtype_top]

/-- C6: `TypeBounds.meet` makes `lower` the higher of the two lower bounds
when they are comparable under subtyping and the top type when they are
incomparable, and makes `upper` the lower of the two upper bounds when
comparable and the bottom type when incomparable. -/
theorem claim_C6_meet_bounds (l u l2 u2 : Ty) :
    (subtype l l2 = true → (TypeBounds.meet ⟨l, u⟩ ⟨l2, u2⟩).lower = l2) ∧
    (subtype l l2 = false → subtype l2 l = true →
      (TypeBounds.meet ⟨l, u⟩ ⟨l2, u2⟩).lower = l) ∧
    (subtype l l2 = false → subtype l2 l = false →
      (TypeBounds.meet ⟨l, u⟩ ⟨l2, u2⟩).lower = Ty.top) ∧
    (subtype u2 u = true → (TypeBounds.meet ⟨l, u⟩ ⟨l2, u2⟩).upper = u2) ∧
    (subtype u2 u = false → subtype u u2 = true →
      (TypeBounds.meet ⟨l, u⟩ ⟨l2, u2⟩).upper = u) ∧
    (subtype u2 u = false → subtype u u2 = false →
      (TypeBounds.meet ⟨l, u⟩ ⟨l2, u2⟩).upper = Ty.bottom) := by
  refine ⟨fun h => ?_, fun h h2 => ?_, fun h h2 => ?_,
          fun h => ?_, fun h h2 => ?_, fun h h2 => ?_⟩ <;>
    simp [TypeBounds.meet, h]
  · simp [h2]
  · simp [h2]
  · simp [h2]
  · simp [h2]

/-- C6 witness: each case of the meet behaviour exercised at a concrete
interval pair. -/
theorem claim_C6_meet_bounds_witness :
    (TypeBounds.meet ⟨Ty.bottom, Ty.top⟩ ⟨Ty.prim .i32, Ty.prim .i32⟩).lower
      = Ty.prim .i32 ∧
    (TypeBounds.meet ⟨Ty.prim .i32, Ty.top⟩ ⟨Ty.bottom, Ty.top⟩).lower
      = Ty.prim .i32 ∧
    (TypeBounds.meet ⟨Ty.prim .i32, Ty.top⟩ ⟨Ty.prim .u32, Ty.top⟩).lower
      = Ty.top ∧
    (TypeBounds.meet ⟨Ty.bottom, Ty.top⟩ ⟨Ty.bottom, Ty.prim .i32⟩).upper
      = Ty.prim .i32 ∧
    (TypeBounds.meet ⟨Ty.bottom, Ty.prim .i32⟩ ⟨Ty.bottom, Ty.top⟩).upper
      = Ty.prim .i32 ∧
    (TypeBounds.meet ⟨Ty.bottom, Ty.prim .i32⟩ ⟨Ty.bottom, Ty.prim .u32⟩).upper
      = Ty.bottom :=
  ⟨(claim_C6_meet_bounds _ _ _ _).1 (by simp [subtype]),
   (claim_C6_meet_bounds _ _ _ _).2.1 (by simp [subtype]) (by simp [subtype]),
   (claim_C6_meet_bounds _ _ _ _).2.2.1 (by simp [subtype]) (by simp [subtype]),
   (claim_C6_meet_bounds _ _ _ _).2.2.2.1 (by simp [subtype]),
   (claim_C6_meet_bounds _ _ _ _).2.2.2.2.1 (by simp [subtype]) (by simp [subtype]),
   (claim_C6_meet_bounds _ _ _ _).2.2.2.2.2 (by simp [subtype]) (by simp [subtype])⟩

/-- C1 counterexample: contrary to the claim, `unify(FnType(α, α),
FnType(I32, I32), {})` does not succeed with `{α ↦ I32}`: `unify` has no
case for `FnType`, so the call fails (with the map left empty). -/
theorem claim_C1_counterexample :
    unify (.fn (.var 0) (.var 0)) (.fn (.prim .i32) (.prim .i32)) []
      = (false, []) := by
  simp [unify]

/-- C1 amended: `unify` never destructures `FnType`, so both function-type
queries of the claim fail with the map unchanged; moreover a variable that is
already mapped fails to unify with any distinct target — even one equal to
its existing binding — because `emplace` reports failure on any present
key. -/
theorem claim_C1_amended (k : Nat) (t : Ty) (m : RMap)
    (hk : rmapContains m k = true) (ht : t ≠ .var k) :
    unify (.fn (.var 0) (.var 0)) (.fn (.prim .i32) (.prim .i32)) []
      = (false, []) ∧
    unify (.fn (.var 0) (.var 0)) (.fn (.prim .i32) (.prim .u32)) []
      = (false, []) ∧
    unify (.var k) t m = (false, m) := by
  refine ⟨by simp [unify], by simp [unify], ?_⟩
  have hne : Ty.var k ≠ t := fun h => ht h.symm
  simp [unify, hne, rmapEmplace, hk]

/-- C1 witness: the variable 0 is already mapped to I32, and unifying it
against I32 itself still fails (leaving the map unchanged). -/
theorem claim_C1_amended_witness :
    rmapContains [(0, Ty.prim .i32)] 0 = true ∧
    unify (.var 0) (.prim .i32) [(0, Ty.prim .i32)]
      = (false, [(0, Ty.prim .i32)]) :=
  ⟨by decide,
   (claim_C1_amended 0 (.prim .i32) [(0, Ty.prim .i32)] (by decide)
      (by decide)).2.2⟩

/-- C10: unify is not atomic on failure: unifying `(α, I32)` against
`(I32, U32)` fails, yet the map has grown, retaining the binding `α ↦ I32`
made for the first component before the second one failed. -/
theorem claim_C10_unify_not_atomic :
    unify (.tuple [.var 0, .prim .i32]) (.tuple [.prim .i32, .prim .u32]) []
      = (false, [(0, Ty.prim .i32)]) := by
  simp [unify, unifyList, rmapEmplace, rmapContains]

/-- C7: alias transparency: applying a one-parameter alias yields exactly the
alias body under the substitution of the parameter by the argument (no
`TypeApp` around the alias is built), while any non-alias head interns a
`TypeApp`. -/
theorem claim_C7_alias_transparency (env : Nat → AliasDecl) (d a : Nat)
    (T U : Ty) (henv : env d = ⟨[a], T⟩) (applied : Ty) (args : List Ty)
    (hna : ∀ d2, applied ≠ .alias d2) :
    type_app env (.alias d) [U] = Ty.replace [(a, U)] T ∧
    type_app env applied args = .typeApp applied args := by
  constructor
  · simp [type_app, henv, mkReplaceMap]
  · cases applied <;> simp [type_app]
    exact absurd rfl (hna _)

/-- C7 witness: the alias `alias(α5) = (α5, I32)` applied to `U32` expands to
the substituted body, and a struct head interns a `TypeApp`. -/
theorem claim_C7_alias_transparency_witness :
    type_app (fun _ => ⟨[5], Ty.tuple [Ty.var 5, Ty.prim .i32]⟩)
        (.alias 0) [Ty.prim .u32]
      = Ty.replace [(5, Ty.prim .u32)] (Ty.tuple [Ty.var 5, Ty.prim .i32]) ∧
    type_app (fun _ => ⟨[5], Ty.tuple [Ty.var 5, Ty.prim .i32]⟩)
        (.structT 3) [Ty.prim .i32]
      = .typeApp (.structT 3) [Ty.prim .i32] :=
  claim_C7_alias_transparency _ 0 5 _ (Ty.prim .u32) rfl (Ty.structT 3)
    [Ty.prim .i32] (by intro d2; simp)

-- Claim C2: subtype transitivity ---------------------------------------------

/-- C2 counterexample: the subtype relation is not transitive.  With address
space 1, the sized array `[I32 * 4]` auto-addresses into
`&[I32 * 4] (addr 1)`, which coerces to `&[I32] (addr 1)` by the pointed
sized-to-unsized rule; but `[I32 * 4] <: &[I32] (addr 1)` is false because
the bare-array coercion demands the generic address space 0. -/
theorem claim_C2_counterexample :
    subtype (.sizedArray (.prim .i32) 4 false)
            (.ptr (.sizedArray (.prim .i32) 4 false) false 1) = true ∧
    subtype (.ptr (.sizedArray (.prim .i32) 4 false) false 1)
            (.ptr (.unsizedArray (.prim .i32)) false 1) = true ∧
    subtype (.sizedArray (.prim .i32) 4 false)
            (.ptr (.unsizedArray (.prim .i32)) false 1) = false := by
  refine ⟨?_, ?_, ?_⟩ <;> simp [subtype, Ty.isPtrType]

mutual

/-- Predicate: the type contains no `PtrType` anywhere.  The pointer
coercion rules are the source of the intransitivity, so the amended claim
restricts to pointer-free types. -/
def noPtr : Ty → Bool
  | .ptr _ _ _ => false
  | .ref p _ _ => noPtr p
  | .tuple args => noPtrList args
  | .sizedArray e _ _ => noPtr e
  | .unsizedArray e => noPtr e
  | .fn d c => noPtr d && noPtr c
  | .typeApp g args => noPtr g && noPtrList args
  | _ => true

/-- Pointer-freedom of a list of types. -/
def noPtrList : List Ty → Bool
  | [] => true
  | t :: ts => noPtr t && noPtrList ts

end

/-- Shape inversion for a successful subtype test, once the reflexivity,
bottom and top fast paths are excluded. -/
theorem subtype_inv (a b : Ty) (h : subtype a b = true)
    (h1 : a ≠ b) (h2 : a ≠ Ty.bottom) (h3 : b ≠ Ty.top) :
    (∃ p m s, a = Ty.ref p m s ∧ subtype p b = true) ∨
    (∃ q mb asb, b = Ty.ptr q mb asb) ∨
    (∃ as bs, a = Ty.tuple as ∧ b = Ty.tuple bs ∧
      as.length = bs.length ∧ subtypeList as bs = true) ∨
    (∃ d c d2 c2, a = Ty.fn d c ∧ b = Ty.fn d2 c2 ∧
      subtype d2 d = true ∧ subtype c c2 = true) := by
  rw [subtype.eq_def, if_neg h1, if_neg h2, if_neg h3] at h
  cases a
  case ref p m s => cases b <;> exact Or.inl ⟨p, m, s, rfl, h⟩
  case tuple as =>
    cases b
    case ptr q mb asb => exact Or.inr (Or.inl ⟨q, mb, asb, rfl⟩)
    case tuple bs =>
      have h' : (decide (as.length = bs.length) && subtypeList as bs) = true := h
      rw [Bool.and_eq_true, decide_eq_true_eq] at h'
      exact Or.inr (Or.inr (Or.inl ⟨as, bs, rfl, rfl, h'.1, h'.2⟩))
    all_goals simp at h
  case fn d c =>
    cases b
    case ptr q mb asb => exact Or.inr (Or.inl ⟨q, mb, asb, rfl⟩)
    case fn d2 c2 =>
      have h' : (subtype d2 d && subtype c c2) = true := h
      rw [Bool.and_eq_true] at h'
      exact Or.inr (Or.inr (Or.inr ⟨d, c, d2, c2, rfl, rfl, h'.1, h'.2⟩))
    all_goals simp at h
  all_goals
    cases b <;>
      first
      | exact Or.inr (Or.inl ⟨_, _, _, rfl⟩)
      | simp at h

/-- Auto-dereference introduction: `ref U <: T` follows from `U <: T`. -/
theorem ref_subtype_intro (p : Ty) (m : Bool) (s : Nat) (c : Ty)
    (h : subtype p c = true) : subtype (.ref p m s) c = true := by
  rw [subtype.eq_def]
  by_cases h1 : Ty.ref p m s = c <;> simp [h1, h]

/-- Componentwise introduction for tuple subtyping. -/
theorem tuple_subtype_intro (as cs : List Ty) (hlen : as.length = cs.length)
    (h : subtypeList as cs = true) : subtype (.tuple as) (.tuple cs) = true := by
  rw [subtype.eq_def]
  by_cases h1 : Ty.tuple as = Ty.tuple cs <;> simp [h1, hlen, h]

/-- Contra/covariant introduction for function subtyping. -/
theorem fn_subtype_intro (d c d2 c2 : Ty)
    (hd : subtype d2 d = true) (hc : subtype c c2 = true) :
    subtype (.fn d c) (.fn d2 c2) = true := by
  rw [subtype.eq_def]
  by_cases h1 : Ty.fn d c = Ty.fn d2 c2 <;> simp [h1, hd, hc]

/-- Among pointer-free types only the top type is a supertype of top. -/
theorem top_subtype_noPtr (c : Ty) (hc : noPtr c = true)
    (h : subtype Ty.top c = true) : c = Ty.top := by
  by_cases h1 : Ty.top = c
  · exact h1.symm
  · rw [subtype.eq_def, if_neg h1] at h
    cases c <;> simp_all [noPtr]

/-- Positivity of the size measure on types. -/
theorem ty_sizeOf_pos (a : Ty) : 0 < sizeOf a := by
  cases a <;> simp_arith

set_option maxHeartbeats 800000 in
/-- Bounded-size transitivity of `subtype` on pointer-free types, by strong
induction on a size bound. -/
theorem subtype_trans_aux (n : Nat) : ∀ (a b c : Ty),
    sizeOf a + sizeOf b + sizeOf c ≤ n → noPtr a = true → noPtr b = true →
    noPtr c = true → subtype a b = true → subtype b c = true →
    subtype a c = true := by
  induction n with
  | zero =>
      intro a b c hn _ _ _ _ _
      have := ty_sizeOf_pos a
      omega
  | succ n IH =>
      -- componentwise transitivity for tuple argument lists
      have listTrans : ∀ (as : List Ty), ∀ (bs cs : List Ty),
          sizeOf as + sizeOf bs + sizeOf cs ≤ n →
          noPtrList as = true → noPtrList bs = true → noPtrList cs = true →
          subtypeList as bs = true → subtypeList bs cs = true →
          as.length = bs.length → bs.length = cs.length →
          subtypeList as cs = true := by
        intro as
        induction as with
        | nil =>
            intro bs cs _ _ _ _ _ _ _ _
            rw [subtypeList.eq_def]
        | cons a as ih =>
            intro bs cs hn2 hpa hpb hpc hl1 hl2 len1 len2
            cases bs with
            | nil => simp at len1
            | cons b bs =>
              cases cs with
              | nil => simp at len2
              | cons c cs =>
                rw [subtypeList.eq_def] at hl1 hl2 ⊢
                have hl1' : (subtype a b && subtypeList as bs) = true := hl1
                have hl2' : (subtype b c && subtypeList bs cs) = true := hl2
                rw [Bool.and_eq_true] at hl1' hl2'
                simp only [noPtrList, Bool.and_eq_true] at hpa hpb hpc
                show (subtype a c && subtypeList as cs) = true
                rw [Bool.and_eq_true]
                refine ⟨IH a b c ?_ hpa.1 hpb.1 hpc.1 hl1'.1 hl2'.1,
                  ih bs cs ?_ hpa.2 hpb.2 hpc.2 hl1'.2 hl2'.2
                    (by simpa using len1) (by simpa using len2)⟩
                · simp only [List.cons.sizeOf_spec] at hn2; omega
                · simp only [List.cons.sizeOf_spec] at hn2; omega
      intro a b c hn ha hb hc h1 h2
      by_cases hab : a = b
      · subst hab; exact h2
      by_cases hbc : b = c
      · subst hbc; exact h1
      by_cases habot : a = Ty.bottom
      · subst habot; exact bottom_subtype c
      by_cases hctop : c = Ty.top
      · subst hctop; exact subtype_top a
      by_cases hbtop : b = Ty.top
      · subst hbtop; exact absurd (top_subtype_noPtr c hc h2) hctop
      rcases subtype_inv a b h1 hab habot hbtop with
        ⟨p, m, s, rfl, hp⟩ | ⟨q, mb, asb, rfl⟩ |
        ⟨as, bs, rfl, rfl, hlen, hlist⟩ | ⟨d, cd, d2, c2, rfl, rfl, hd, hcd⟩
      · -- a = ref p m s: auto-dereference, then the inductive hypothesis
        have hp2 : noPtr p = true := by simpa [noPtr] using ha
        refine ref_subtype_intro p m s c (IH p b c ?_ hp2 hb hc hp h2)
        simp only [Ty.ref.sizeOf_spec] at hn; omega
      · -- b would be a pointer type, contradicting its pointer-freedom
        simp [noPtr] at hb
      · -- a and b are tuples; invert the second subtyping
        rcases subtype_inv (Ty.tuple bs) c h2 hbc (by simp) hctop with
          ⟨p, m, s, heq, _⟩ | ⟨q, mb, asb, rfl⟩ |
          ⟨bs2, cs, hbeq2, rfl, hlen2, hlist2⟩ | ⟨d, cd, d2, c2, heq, _, _, _⟩
        · exact absurd heq (by simp)
        · simp [noPtr] at hc
        · have hbs : bs = bs2 := by
            have h0 := hbeq2; simp only [Ty.tuple.injEq] at h0; exact h0
          subst hbs
          simp only [noPtr] at ha hb hc
          refine tuple_subtype_intro as cs (hlen.trans hlen2)
            (listTrans as bs cs ?_ ha hb hc hlist hlist2 hlen hlen2)
          simp only [Ty.tuple.sizeOf_spec] at hn; omega
        · exact absurd heq (by simp)
      · -- a and b are function types; invert the second subtyping
        rcases subtype_inv (Ty.fn d2 c2) c h2 hbc (by simp) hctop with
          ⟨p, m, s, heq, _⟩ | ⟨q, mb, asb, rfl⟩ |
          ⟨bs2, cs, heq, _, _, _⟩ | ⟨d2', c2', d3, c3, hbeq2, rfl, hd2, hc2⟩
        · exact absurd heq (by simp)
        · simp [noPtr] at hc
        · exact absurd heq (by simp)
        · have hfn : d2 = d2' ∧ c2 = c2' := by
            have h0 := hbeq2; simp only [Ty.fn.injEq] at h0; exact h0
          obtain ⟨hfd, hfc⟩ := hfn
          subst hfd; subst hfc
          simp only [noPtr, Bool.and_eq_true] at ha hb hc
          refine fn_subtype_intro d cd d3 c3
            (IH d3 d2 d ?_ hc.1 hb.1 ha.1 hd2 hd)
            (IH cd c2 c3 ?_ ha.2 hb.2 hc.2 hcd hc2)
          · simp only [Ty.fn.sizeOf_spec] at hn; omega
          · simp only [Ty.fn.sizeOf_spec] at hn; omega

/-- C2 amended: the subtype relation restricted to pointer-free types is
transitive.  (The pointer coercion rules break transitivity; see the
counterexample.) -/
theorem claim_C2_amended_subtype_trans (a b c : Ty) (ha : noPtr a = true)
    (hb : noPtr b = true) (hc : noPtr c = true) (h1 : subtype a b = true)
    (h2 : subtype b c = true) : subtype a c = true :=
  subtype_trans_aux (sizeOf a + sizeOf b + sizeOf c) a b c (le_refl _)
    ha hb hc h1 h2

/-- C2 witness: transitivity applied at a concrete pointer-free chain:
`(Bottom, I32) <: (I32, I32) <: (Top, I32)`. -/
theorem claim_C2_amended_subtype_trans_witness :
    subtype (.tuple [.bottom, .prim .i32]) (.tuple [.top, .prim .i32]) = true :=
  claim_C2_amended_subtype_trans
    (.tuple [.bottom, .prim .i32])
    (.tuple [.prim .i32, .prim .i32])
    (.tuple [.top, .prim .i32])
    (by simp [noPtr, noPtrList])
    (by simp [noPtr, noPtrList])
    (by simp [noPtr, noPtrList])
    (by simp [subtype, subtypeList])
    (by simp [subtype, subtypeList])

-- Claim C9: interning ---------------------------------------------------------

/-!
Interning model for `TypeTable::insert` (types.cpp lines 852-859).

The table owns every node; a handle is an index into the insertion-ordered
store.  A node's type-valued members are themselves handles (the C++ members
are `const Type*`), so the pointer comparisons inside the per-variant
`equals` functions become equality of handles.  `insert` builds a fresh node
and searches the store with the per-variant `equals`; the nominal variants'
`equals` is object identity (`other == this`, types.cpp lines 71-101), and
the probe is a fresh object distinct from every stored node, so that
comparison is always false during the search.
-/

/-- Store-level nodes: members are handles (indices) into the store. -/
inductive Node where
  | primN (tag : PrimTag)
  | tupleN (args : List Nat)
  | sizedArrayN (elem : Nat) (size : Nat) (is_simd : Bool)
  | unsizedArrayN (elem : Nat)
  | ptrN (pointee : Nat) (is_mut : Bool) (addr_space : Nat)
  | refN (pointee : Nat) (is_mut : Bool) (addr_space : Nat)
  | fnN (dom : Nat) (codom : Nat)
  | typeAppN (applied : Nat) (args : List Nat)
  | bottomN
  | topN
  | noRetN
  | typeErrorN
  | varN (param : Nat)
  | forallN (decl : Nat)
  | structN (decl : Nat)
  | enumN (decl : Nat)
  | traitN (decl : Nat)
  | implN (decl : Nat)
  | modN (decl : Nat)
  | aliasN (decl : Nat)
  deriving DecidableEq

/-- Which variants have a structural (content-comparing) `equals`. -/
def Node.isStructural : Node → Bool
  | .primN _ | .tupleN _ | .sizedArrayN _ _ _ | .unsizedArrayN _
  | .ptrN _ _ _ | .refN _ _ _ | .fnN _ _ | .typeAppN _ _
  | .bottomN | .topN | .noRetN | .typeErrorN => true
  | _ => false

/-- The per-variant `equals` (types.cpp lines 25-108) as evaluated by
`insert` between a stored node `n` and the fresh probe `t`: structural
variants compare variant and members (member pointer comparisons are handle
comparisons); the singletons compare `typeid`; the nominal variants compare
object identity (`other == this`), which is false because the probe is a
fresh object. -/
def equalsNode : Node → Node → Bool
  | .primN t, .primN t2 => decide (t = t2)
  | .tupleN as, .tupleN bs => decide (as = bs)
  | .sizedArrayN e n s, .sizedArrayN e2 n2 s2 =>
      decide (e = e2) && decide (n = n2) && decide (s = s2)
  | .unsizedArrayN e, .unsizedArrayN e2 => decide (e = e2)
  | .ptrN p m s, .ptrN p2 m2 s2 =>
      decide (p = p2) && decide (s = s2) && decide (m = m2)
  | .refN p m s, .refN p2 m2 s2 =>
      decide (p = p2) && decide (s = s2) && decide (m = m2)
  | .fnN d c, .fnN d2 c2 => decide (d = d2) && decide (c = c2)
  | .typeAppN g as, .typeAppN g2 bs => decide (g = g2) && decide (as = bs)
  | .bottomN, .bottomN => true
  | .topN, .topN => true
  | .noRetN, .noRetN => true
  | .typeErrorN, .typeErrorN => true
  | _, _ => false

/-- The `types_.find(&t)` search: index of the first stored node that the
per-variant `equals` considers equal to the probe. -/
def findIndex (store : List Node) (t : Node) : Option Nat :=
  match store with
  | [] => none
  | n :: rest =>
      if equalsNode n t then some 0 else (findIndex rest t).map (· + 1)

/-- Translation of `TypeTable::insert` (types.cpp lines 852-859): return the
handle of a stored node considered equal, or append the fresh node and
return its handle. -/
def TTinsert (store : List Node) (t : Node) : Nat × List Node :=
  match findIndex store t with
  | some i => (i, store)
  | none => (store.length, store ++ [t])

set_option maxHeartbeats 1600000 in
/-- For a structural probe, the per-variant `equals` coincides with node
equality. -/
theorem equalsNode_iff (n t : Node) (ht : t.isStructural = true) :
    (equalsNode n t = true) ↔ n = t := by
  cases n <;> cases t <;> simp_all [equalsNode, Node.isStructural] <;> tauto

/-- Against a nominal probe the search always misses. -/
theorem equalsNode_nominal (n t : Node) (ht : t.isStructural = false) :
    equalsNode n t = false := by
  cases n <;> cases t <;> simp_all [equalsNode, Node.isStructural]

/-- A hit of the search points at a node considered equal to the probe. -/
theorem findIndex_some {s : List Node} {t : Node} {i : Nat}
    (h : findIndex s t = some i) :
    i < s.length ∧ ∃ n, s.get? i = some n ∧ equalsNode n t = true := by
  induction s generalizing i with
  | nil => simp [findIndex] at h
  | cons n rest ih =>
      have h' : (if equalsNode n t = true then some 0
          else (findIndex rest t).map (· + 1)) = some i := h
      by_cases he : equalsNode n t = true
      · rw [if_pos he] at h'
        injection h' with h2
        subst h2
        exact ⟨by simp, n, rfl, he⟩
      · rw [if_neg he, Option.map_eq_some'] at h'
        obtain ⟨j, hj, hji⟩ := h'
        subst hji
        obtain ⟨hlt, m, hm, hme⟩ := ih hj
        exact ⟨by simpa using hlt, m, by simpa using hm, hme⟩

/-- Searching an extended store. -/
theorem findIndex_append_single (s : List Node) (u t : Node) :
    findIndex (s ++ [u]) t =
      match findIndex s t with
      | some i => some i
      | none => if equalsNode u t then some s.length else none := by
  induction s with
  | nil => simp [findIndex]
  | cons n rest ih =>
      by_cases he : equalsNode n t = true
      · simp [findIndex, he]
      · have hL : findIndex ((n :: rest) ++ [u]) t
            = (findIndex (rest ++ [u]) t).map (· + 1) := by
          simp [findIndex, he]
        have hR : findIndex (n :: rest) t = (findIndex rest t).map (· + 1) := by
          simp [findIndex, he]
        rw [hL, hR, ih]
        rcases hf : findIndex rest t with _ | i <;> simp [hf]

/-- A nominal probe never hits. -/
theorem findIndex_nominal (s : List Node) (t : Node)
    (ht : t.isStructural = false) : findIndex s t = none := by
  induction s with
  | nil => rfl
  | cons n rest ih => simp [findIndex, equalsNode_nominal n t ht, ih]

/-- C9 counterexample: the nominal constructors do not intern: inserting the
same struct node (same declaration identity) twice yields two distinct
handles, because the code's nominal `equals` compares object identity and the
probe object is always fresh. -/
theorem claim_C9_counterexample :
    (TTinsert ((TTinsert [] (.structN 0)).2) (.structN 0)).1 ≠
      (TTinsert [] (.structN 0)).1 := by
  decide

/-- C9 amended: structural-variant constructors intern: re-inserting the same
structural node returns the same handle and leaves the store unchanged, and
the handles of two structural insertions agree exactly when the nodes are
structurally equal.  Nominal-variant constructors never hit the search (the
code's nominal `equals` is object identity, not declaration identity) and
append a fresh node on every call. -/
theorem claim_C9_amended_interning (s : List Node) (x y : Node)
    (hx : x.isStructural = true) (hy : y.isStructural = true) :
    TTinsert ((TTinsert s x).2) x = TTinsert s x ∧
    ((TTinsert ((TTinsert s x).2) y).1 = (TTinsert s x).1 ↔ y = x) ∧
    (∀ z : Node, z.isStructural = false →
      TTinsert s z = (s.length, s ++ [z])) := by
  have hxx : equalsNode x x = true := (equalsNode_iff x x hx).mpr rfl
  have hfirst : TTinsert ((TTinsert s x).2) x = TTinsert s x := by
    rcases h1 : findIndex s x with _ | i
    · simp [TTinsert, h1, findIndex_append_single, hxx]
    · simp [TTinsert, h1]
  refine ⟨hfirst, ⟨?_, ?_⟩, ?_⟩
  · intro hh
    by_contra hyx
    have hxy : equalsNode x y = false := by
      cases h2 : equalsNode x y
      · rfl
      · exact absurd ((equalsNode_iff x y hy).mp h2).symm hyx
    rcases h1 : findIndex s x with _ | i
    · -- the fresh x sits at index s.length
      simp only [TTinsert, h1] at hh
      rcases h2 : findIndex s y with _ | j
      · rw [findIndex_append_single] at hh
        simp [h2, hxy] at hh
      · rw [findIndex_append_single] at hh
        simp only [h2] at hh
        obtain ⟨hj, _⟩ := findIndex_some h2
        omega
    · -- x was found at index i < s.length
      simp only [TTinsert, h1] at hh
      obtain ⟨hi, n, hn, hne⟩ := findIndex_some h1
      have hnx : n = x := (equalsNode_iff n x hx).mp hne
      rcases h2 : findIndex s y with _ | j
      · simp only [TTinsert, h2] at hh
        omega
      · simp only [TTinsert, h2] at hh
        obtain ⟨hj, m, hm, hme⟩ := findIndex_some h2
        have hmy : m = y := (equalsNode_iff m y hy).mp hme
        rw [hh, hn] at hm
        injection hm with hm
        exact hyx (by rw [← hmy, ← hm]; exact hnx)
  · intro hyx
    subst hyx
    exact congrArg Prod.fst hfirst
  · intro z hz
    simp [TTinsert, findIndex_nominal s z hz]

/-- C9 witness: on the empty table, re-inserting the unit tuple node is
idempotent, its handle differs from the handle of `PrimType(I32)`, and a
nominal struct node is appended rather than interned. -/
theorem claim_C9_amended_interning_witness :
    TTinsert ((TTinsert [] (Node.tupleN [])).2) (Node.tupleN [])
      = TTinsert [] (Node.tupleN []) ∧
    ((TTinsert ((TTinsert [] (Node.tupleN [])).2) (Node.primN .i32)).1
      = (TTinsert [] (Node.tupleN [])).1 ↔ Node.primN .i32 = Node.tupleN []) ∧
    (∀ z : Node, z.isStructural = false →
      TTinsert [] z = (([] : List Node).length, ([] : List Node) ++ [z])) :=
  claim_C9_amended_interning [] (Node.tupleN []) (Node.primN .i32)
    (by decide) (by decide)

-- Claims C3 and C4: ImplResolver ---------------------------------------------

/-- The data of a registered impl consulted by `find_impl`: the interned
`ImplType`'s declaration identity, its `impled_type()`, and the types of its
`where` clauses. -/
structure ImplM where
  id : Nat
  impledType : Ty
  whereClauses : List Ty
  deriving DecidableEq

/-- A use-site declaration's surroundings, as walked by
`ImplResolver::forall_candidates` through `find_parent`: the `where` clause
lists of the enclosing functions (innermost first, clauses in declaration
order) and the enclosing modules (innermost first). -/
structure UseSite where
  enclosingFns : List (List Ty)
  enclosingMods : List Nat

/-- `match_app<TraitType>`: the trait declaration identity of a target type
(a trait directly, or a `TypeApp` whose head is a trait). -/
def matchAppTrait : Ty → Option Nat
  | .traitT d => some d
  | .typeApp (.traitT d) _ => some d
  | _ => none

/-- The resolver state `impl_candidates_`, keyed by module identity and
trait identity, holding candidates in registration order. -/
abbrev Cands := Nat → Option Nat → List ImplM

/-- The function-walking half of `forall_candidates` specialised to
`find_impl`'s clause visitor: the first enclosing-function `where` clause
that is pointer-identical to the target. -/
def findFnClause (fns : List (List Ty)) (target : Ty) : Option Ty :=
  match fns with
  | [] => none
  | f :: rest =>
      match f.find? (fun c => decide (c = target)) with
      | some c => some c
      | none => findFnClause rest target

mutual

/-- Translation of `ImplResolver::find_impl` composed with
`forall_candidates` (types.cpp lines 870-918), with an explicit recursion
fuel.  The C++ code has no fuel; `none` ("fuel exhausted at every bound")
models divergence, while `some r` means the C++ function terminates with
result `r` (`some t` a found witness, `none` a failed search). -/
def findImpl (cands : Cands) : Nat → UseSite → Ty → Option (Option Ty)
  | 0, _, _ => none
  | n+1, site, target =>
      match findFnClause site.enclosingFns target with
      | some c => some (some c)
      | none => tryMods cands n site target site.enclosingMods
termination_by n _ _ => (n, 0, 0)

/-- The module-walking loop of `forall_candidates` (innermost first). -/
def tryMods (cands : Cands) : Nat → UseSite → Ty → List Nat → Option (Option Ty)
  | _, _, _, [] => some none
  | n, site, target, m :: ms =>
      match tryImpls cands n site target (cands m (matchAppTrait target)) with
      | none => none
      | some (some t) => some (some t)
      | some none => tryMods cands n site target ms
termination_by n _ _ ms => (n, 3, ms.length)

/-- The candidate loop (registration order): the first impl that unifies
with the target and whose `where` clauses can all be discharged. -/
def tryImpls (cands : Cands) : Nat → UseSite → Ty → List ImplM → Option (Option Ty)
  | _, _, _, [] => some none
  | n, site, target, i :: is =>
      if (unify i.impledType target []).1 then
        match checkClauses cands n site i.whereClauses with
        | none => none
        | some true => some (some (Ty.implT i.id))
        | some false => tryImpls cands n site target is
      else tryImpls cands n site target is
termination_by n _ _ is => (n, 2, is.length)

/-- Recursive discharge of the chosen impl's `where` clauses. -/
def checkClauses (cands : Cands) : Nat → UseSite → List Ty → Option Bool
  | _, _, [] => some true
  | n, site, c :: cs =>
      match findImpl cands n site c with
      | none => none
      | some (some _) => checkClauses cands n site cs
      | some none => some false
termination_by n _ cs => (n, 1, cs.length)

end

/-- The pathological registration of the claim: in module 0, an impl of
trait 0 whose single `where` clause is trait 0 itself (`impl A where A`). -/
def selfRefImpl : ImplM := ⟨100, .traitT 0, [.traitT 0]⟩

/-- Candidate table holding only the self-referential impl. -/
def selfRefCands : Cands := fun m t =>
  if m = 0 ∧ t = some 0 then [selfRefImpl] else []

/-- A use site directly inside module 0, not inside any function. -/
def selfRefSite : UseSite := ⟨[], [0]⟩

/-- C3: `find_impl` does not terminate on the self-referential impl
`impl A where A`: discharging the clause re-enters `find_impl` on the same
target, so in the fuel-indexed model the fuel is exhausted at every bound
(the C++ code, which carries no visited set, recurses forever). -/
theorem claim_C3_selfref_diverges (n : Nat) :
    findImpl selfRefCands n selfRefSite (Ty.traitT 0) = none := by
  induction n with
  | zero => simp [findImpl]
  | succ n ih =>
      have ih2 : findImpl selfRefCands n ⟨[], [0]⟩ (Ty.traitT 0) = none := ih
      simp [findImpl, tryMods, tryImpls, checkClauses, selfRefSite,
        selfRefCands, selfRefImpl, findFnClause, matchAppTrait, unify, ih2]

/-- C4: the search order of `find_impl`: (1) the `where` clauses of the
enclosing functions come first, and a clause pointer-identical to the target
is returned immediately, whatever impls are registered; (2) within one
module, matching candidates are tried in registration order, so the first
registered matching impl wins even when a later one also matches; (3) the
enclosing modules are walked innermost first, so an impl registered in the
innermost module wins over a matching one in an outer module. -/
theorem claim_C4_search_order (cA cB cC : Cands) (m1 m2 : Nat) (i1 i2 : ImplM)
    (target : Ty) (n : Nat) (ms : List Nat)
    (h1c : i1.whereClauses = [])
    (hu1 : (unify i1.impledType target []).1 = true)
    (hu2 : (unify i2.impledType target []).1 = true) :
    (findImpl cA (n+1) ⟨[[target]], ms⟩ target = some (some target)) ∧
    (cB m1 (matchAppTrait target) = [i1, i2] →
      findImpl cB (n+1) ⟨[], [m1]⟩ target = some (some (Ty.implT i1.id))) ∧
    (cC m1 (matchAppTrait target) = [i1] → cC m2 (matchAppTrait target) = [i2] →
      findImpl cC (n+1) ⟨[], [m1, m2]⟩ target = some (some (Ty.implT i1.id))) := by
  refine ⟨?_, fun hB => ?_, fun hC1 hC2 => ?_⟩
  · simp [findImpl, findFnClause]
  · simp [findImpl, findFnClause, tryMods, hB, tryImpls, hu1, h1c, checkClauses]
  · simp [findImpl, findFnClause, tryMods, hC1, tryImpls, hu1, h1c, checkClauses]

/-- C4 witness: with trait 7 as target, two clause-free impls 10 and 11 both
unifying with it, the fn-clause shortcut, the registration order within
module 1 and the innermost-module preference are all observed concretely. -/
theorem claim_C4_search_order_witness :
    (findImpl (fun _ _ => []) 1 ⟨[[Ty.traitT 7]], [5]⟩ (Ty.traitT 7)
      = some (some (Ty.traitT 7))) ∧
    (findImpl (fun m _ => if m = 1 then [⟨10, .traitT 7, []⟩, ⟨11, .traitT 7, []⟩] else [])
        1 ⟨[], [1]⟩ (Ty.traitT 7) = some (some (Ty.implT 10))) ∧
    (findImpl (fun m _ => if m = 1 then [⟨10, .traitT 7, []⟩]
          else if m = 2 then [⟨11, .traitT 7, []⟩] else [])
        1 ⟨[], [1, 2]⟩ (Ty.traitT 7) = some (some (Ty.implT 10))) := by
  have h := claim_C4_search_order
    (fun _ _ => [])
    (fun m _ => if m = 1 then [⟨10, .traitT 7, []⟩, ⟨11, .traitT 7, []⟩] else [])
    (fun m _ => if m = 1 then [⟨10, .traitT 7, []⟩]
      else if m = 2 then [⟨11, .traitT 7, []⟩] else [])
    1 2 ⟨10, .traitT 7, []⟩ ⟨11, .traitT 7, []⟩ (Ty.traitT 7) 0 [5]
    rfl (by simp [unify]) (by simp [unify])
  exact ⟨h.1, h.2.1 (by simp), h.2.2 (by simp) (by simp)⟩
